import Mathlib

/-!
Verification of the core string logic of the Huawei OBS Dify plugin:
the object-key builders (`src/tools/upload_file.py`,
`src/tools/multi_upload_files.py`), the URL resolver
(`src/tools/get_file_by_url.py`, `src/tools/get_files_by_urls.py`),
the extension/MIME mapper and the batch-size guards.

Python strings are modelled as lists of characters (`PyStr`); the fragment of
`urllib.parse.urlparse` that the resolver relies on is embedded for URLs of
the shapes these tools handle ("scheme://netloc/path…;params?query#fragment"
and scheme-less host/path strings).
-/

namespace HuaweiObs

/-- Python strings, modelled as lists of characters. -/
abbrev PyStr := List Char

/-- Convert a Lean string literal to a `PyStr`. -/
def pstr (s : String) : PyStr := s.data

/-- ASCII lower-casing of one character, as Python's `str.lower` acts on ASCII. -/
def lowerChar (c : Char) : Char :=
  if 'A' ≤ c ∧ c ≤ 'Z' then Char.ofNat (c.toNat + 32) else c

/-- Python `s.lower()` (ASCII fragment). -/
def pyLower (s : PyStr) : PyStr := s.map lowerChar

/-- Python `s.startswith(p)`. -/
def startsWith (s p : PyStr) : Bool := p.isPrefixOf s

/-- Python `s.endswith(p)`. -/
def endsWith (s p : PyStr) : Bool := p.isSuffixOf s

/-- Python `s.lstrip("/")`. -/
def lstripSlash (s : PyStr) : PyStr := s.dropWhile (fun c => c == '/')

/-- Python `a or b` on strings: `b` when `a` is empty. -/
def pyOr (a b : PyStr) : PyStr := if a = [] then b else a

/-- Split a list at the first occurrence of `c`; the separator is dropped. -/
def splitAtChar (c : Char) : PyStr → Option (PyStr × PyStr)
  | [] => none
  | x :: xs =>
    if x = c then some ([], xs)
    else (splitAtChar c xs).map (fun p => (x :: p.1, p.2))

/-- Split a list at the last occurrence of `c`; the separator is dropped. -/
def splitAtLastChar (c : Char) (s : PyStr) : Option (PyStr × PyStr) :=
  match splitAtChar c s.reverse with
  | some (a, b) => some (b.reverse, a.reverse)
  | none => none

/-- Python `s.split(c, 1)`: the part before the first `c`, and the rest when
`c` occurs at all. -/
def pySplit1 (c : Char) (s : PyStr) : PyStr × Option PyStr :=
  match splitAtChar c s with
  | some (a, b) => (a, some b)
  | none => (s, none)

/-- Split off the tail after the first `c` (identity when `c` is absent). -/
def splitTail (c : Char) (s : PyStr) : PyStr × PyStr :=
  match splitAtChar c s with
  | some (a, b) => (a, b)
  | none => (s, [])

/-- Characters allowed in a URL scheme (`urllib.parse.scheme_chars`). -/
def schemeChar (c : Char) : Bool :=
  c.isAlpha || c.isDigit || c == '+' || c == '-' || c == '.'

/-- A valid scheme is nonempty, starts with a letter, and consists of scheme
characters only. -/
def validScheme : PyStr → Bool
  | [] => false
  | c :: cs => c.isAlpha && (c :: cs).all schemeChar

/-- `urlsplit` step 1: split off `scheme:` when the part before the first
colon is a valid scheme (the scheme is lower-cased). -/
def splitSchemePart (url : PyStr) : PyStr × PyStr :=
  match splitAtChar ':' url with
  | some (before, after) =>
    if validScheme before then (pyLower before, after) else ([], url)
  | none => ([], url)

/-- A character that does not terminate a netloc ('/', '?' and '#' do). -/
def netlocOk (c : Char) : Bool := !(c == '/' || c == '?' || c == '#')

/-- `urlsplit` step 2: when the rest starts with `//`, the netloc runs to the
next `/`, `?` or `#`, which stays in the remainder. -/
def splitNetlocPart (rest : PyStr) : PyStr × PyStr :=
  if startsWith rest ['/', '/'] then
    let r := rest.drop 2
    (r.takeWhile netlocOk, r.dropWhile netlocOk)
  else ([], rest)

/-- `urlparse`'s params step (`_splitparams`): split `;params` off the last
path segment.  Every scheme these tools produce uses params. -/
def splitParams (s : PyStr) : PyStr × PyStr :=
  if ';' ∈ s then
    match splitAtLastChar '/' s with
    | some (pre, last) =>
      match splitAtChar ';' last with
      | some (a, b) => (pre ++ '/' :: a, b)
      | none => (s, [])
    | none => splitTail ';' s
  else (s, [])

/-- The result components of `urllib.parse.urlparse`. -/
structure Parsed where
  scheme : PyStr
  netloc : PyStr
  path : PyStr
  params : PyStr
  query : PyStr
  fragment : PyStr

/-- `urllib.parse.urlparse`, for URLs of the shapes these tools handle. -/
def pyUrlparse (url : PyStr) : Parsed :=
  let s1 := splitSchemePart url
  let s2 := splitNetlocPart s1.2
  let s3 := splitTail '#' s2.2
  let s4 := splitTail '?' s3.1
  let s5 := splitParams s4.1
  ⟨s1.1, s2.1, s5.1, s5.2, s4.2, s3.2⟩

/-- Error message raised when no endpoint is configured
(`get_file_by_url.py` line 163). -/
def errEmptyEndpoint : PyStr := pstr "缺少endpoint配置"

/-- Error message for an underivable bucket (`get_file_by_url.py` line 181). -/
def errNoBucket : PyStr := pstr "无法从URL中解析bucket名称"

/-- Error message for an empty object key (`get_file_by_url.py` line 192). -/
def errNoKey : PyStr := pstr "无法从URL中解析对象key"

/-- Host-mismatch error message embedding the URL's netloc and the expected
endpoint host (`get_file_by_url.py` line 189). -/
def errMismatch (netloc endpointHost : PyStr) : PyStr :=
  pstr "URL与endpoint不匹配: " ++ netloc ++ pstr " != " ++ endpointHost

/-- The outer `except` clause wraps every inner message
(`get_file_by_url.py` line 197). -/
def wrapParseErr (inner : PyStr) : PyStr := pstr "URL解析失败: " ++ inner

/-- Endpoint normalization (`get_file_by_url.py` lines 166–167): prepend
`https://` when no scheme prefix is present. -/
def normEndpoint (e : PyStr) : PyStr :=
  if startsWith e (pstr "http://") || startsWith e (pstr "https://") then e
  else pstr "https://" ++ e

/-- The lower-cased host component of the normalized endpoint
(`get_file_by_url.py` lines 169–170). -/
def endpointHostOf (e : PyStr) : PyStr :=
  let ep := pyUrlparse (normEndpoint e)
  pyLower (pyOr ep.netloc ep.path)

/-- The lower-cased host component of the URL (`get_file_by_url.py` line 171). -/
def urlHostOf (u : PyStr) : PyStr :=
  let p := pyUrlparse u
  pyLower (pyOr p.netloc p.path)

/-- `GetFileByUrlTool._parse_url` / `GetFilesByUrlsTool._parse_url`
(`src/tools/get_file_by_url.py` lines 150–197, identical in
`src/tools/get_files_by_urls.py` lines 225–273): resolve an OBS URL into a
`(bucket, objectKey)` pair, supporting path style and virtual-host style. -/
def parseUrl (endpoint url : PyStr) : Except PyStr (PyStr × PyStr) :=
  if endpoint = [] then .error (wrapParseErr errEmptyEndpoint) else
  let parsed := pyUrlparse url
  let eh := endpointHostOf endpoint
  let uh := urlHostOf url
  if uh = eh then
    let path := lstripSlash parsed.path
    let parts := pySplit1 '/' path
    if parts.1 = [] then .error (wrapParseErr errNoBucket)
    else if parts.2.getD [] = [] then .error (wrapParseErr errNoKey)
    else .ok (parts.1, parts.2.getD [])
  else if endsWith uh ('.' :: eh) then
    let b := uh.take (uh.length - (eh.length + 1))
    let k := lstripSlash parsed.path
    if k = [] then .error (wrapParseErr errNoKey)
    else .ok (b, k)
  else .error (wrapParseErr (errMismatch parsed.netloc eh))

/-- The object key that the resolver derives before its emptiness check
(`get_file_by_url.py` lines 176–187), for a host-matching URL. -/
def extractedKey (endpoint url : PyStr) : PyStr :=
  if urlHostOf url = endpointHostOf endpoint then
    (pySplit1 '/' (lstripSlash (pyUrlparse url).path)).2.getD []
  else
    lstripSlash (pyUrlparse url).path

/-! ## Object-key builders -/

/-- The duck-typed file handle: the upload tools probe `file.filename` and
`file.name`; a present-but-empty attribute behaves like an absent one
(Python truthiness), so both cases are modelled by the empty string. -/
structure FileInput where
  filename : PyStr
  name : PyStr

/-- The injected wall clock: `int(time.time())` and the components of
`datetime.now()` used by `strftime`. -/
structure Clock where
  epoch : Nat
  year : Nat
  month : Nat
  day : Nat

/-- One decimal digit character (only applied to values below ten). -/
def digitCharOf : Nat → Char
  | 0 => '0' | 1 => '1' | 2 => '2' | 3 => '3' | 4 => '4'
  | 5 => '5' | 6 => '6' | 7 => '7' | 8 => '8' | _ => '9'

/-- Fuel-driven decimal rendering (most significant digit first). -/
def digitsFuel : Nat → Nat → PyStr → PyStr
  | 0, _, acc => acc
  | fuel + 1, n, acc =>
    if n < 10 then digitCharOf n :: acc
    else digitsFuel fuel (n / 10) (digitCharOf (n % 10) :: acc)

/-- Decimal rendering of a natural number, as Python's str(int). -/
def natToStr (n : Nat) : PyStr := digitsFuel (n + 1) n []

/-- Zero-padded decimal rendering, as `strftime`'s %Y/%m/%d field padding. -/
def pad (w : Nat) (n : Nat) : PyStr :=
  let d := natToStr n
  List.replicate (w - d.length) '0' ++ d

/-- `datetime.now().strftime("%Y/%m/%d")` (`upload_file.py` line 195). -/
def dateHierarchy (c : Clock) : PyStr :=
  pad 4 c.year ++ '/' :: (pad 2 c.month ++ '/' :: pad 2 c.day)

/-- `datetime.now().strftime("%Y%m%d")` (`upload_file.py` line 206). -/
def dateCombined (c : Clock) : PyStr :=
  pad 4 c.year ++ pad 2 c.month ++ pad 2 c.day

/-- `os.path.splitext` on a base name containing no '/': the extension starts
at the last dot, except that leading dots never begin an extension. -/
def splitextBase (base : PyStr) : PyStr × PyStr :=
  let lead := base.takeWhile (fun c => c == '.')
  let rest := base.dropWhile (fun c => c == '.')
  match splitAtLastChar '.' rest with
  | some (pre, after) => (lead ++ pre, '.' :: after)
  | none => (lead ++ rest, [])

/-- `os.path.splitext`: split a path into root and extension. -/
def pySplitext (p : PyStr) : PyStr × PyStr :=
  match splitAtLastChar '/' p with
  | some (pre, base) => (pre ++ '/' :: (splitextBase base).1, (splitextBase base).2)
  | none => splitextBase p

/-- Modelled from the spec: the extension of a base name — the characters
from the last `.` inclusive, lower-cased; empty if there is none
(spec §4.1 step 1, §3 ObjectKey). -/
def extOfName (base : PyStr) : PyStr :=
  match splitAtLastChar '.' base with
  | some (_, after) => pyLower ('.' :: after)
  | none => []

/-- Modelled from the spec: the helper `get_file_extension` is imported from
`.utils` (`src/tools/utils.py`), which is not present under `src/`.  Per the
spec, the extension is taken from the original file name; the name is probed
the way the tools probe it (`file.filename` first, then `file.name`), and the
extension of its base name is computed by `extOfName`. -/
def get_file_extension (f : FileInput) : PyStr :=
  let nm := if f.filename ≠ [] then f.filename else f.name
  let base := match splitAtLastChar '/' nm with
    | some (_, b) => b
    | none => nm
  extOfName base

/-- Directory normalization in `UploadFileTool._generate_object_key`
(`upload_file.py` lines 187–188 and duplicates): ensure a trailing '/'. -/
def dirSlash (d : PyStr) : PyStr :=
  if endsWith d ['/'] then d else d ++ ['/']

/-- The filename chosen by `UploadFileTool._generate_object_key`, lines
157–173: explicit filename (extension appended unless already a suffix),
else the stem of `file.filename` or `file.name` plus extension, else a
timestamp-based fallback name. -/
def uploadFileName (file : FileInput) (filename : PyStr) (clock : Clock) : PyStr :=
  let extension := get_file_extension file
  if filename ≠ [] then
    (if endsWith filename extension then filename else filename ++ extension)
  else if file.filename ≠ [] then (pySplitext file.filename).1 ++ extension
  else if file.name ≠ [] then (pySplitext file.name).1 ++ extension
  else pstr "file_" ++ natToStr clock.epoch ++ extension

/-- The filename after the naming-mode step (`upload_file.py` lines 176–180):
`filename_timestamp` inserts `_<epoch>` between stem and extension. -/
def uploadFileName2 (file : FileInput) (filename filename_mode : PyStr)
    (clock : Clock) : PyStr :=
  let fname := uploadFileName file filename clock
  if filename_mode = pstr "filename_timestamp" then
    (pySplitext fname).1 ++ '_' :: (natToStr clock.epoch ++ get_file_extension file)
  else fname

/-- `UploadFileTool._generate_object_key` (`src/tools/upload_file.py` lines
139–224): the object key from file, explicit filename, directory and the two
mode strings.  Unknown directory modes fall through to the final else, which
repeats the `no_subdirectory` logic. -/
def generate_object_key (file : FileInput) (filename directory : PyStr)
    (filename_mode directory_mode : PyStr) (clock : Clock) : PyStr :=
  let fname := uploadFileName2 file filename filename_mode clock
  if directory_mode = pstr "no_subdirectory" then
    (if directory ≠ [] then dirSlash directory ++ fname else fname)
  else if directory_mode = pstr "yyyy_mm_dd_hierarchy" then
    (if directory ≠ [] then dirSlash directory ++ (dateHierarchy clock ++ '/' :: fname)
     else dateHierarchy clock ++ '/' :: fname)
  else if directory_mode = pstr "yyyy_mm_dd_combined" then
    (if directory ≠ [] then dirSlash directory ++ (dateCombined clock ++ '/' :: fname)
     else dateCombined clock ++ '/' :: fname)
  else
    (if directory ≠ [] then dirSlash directory ++ fname else fname)

/-- The original filename in `MultiUploadFilesTool._generate_object_key`
(`multi_upload_files.py` lines 170–178). -/
def multiOriginalName (file : FileInput) (clock : Clock) : PyStr :=
  if file.filename ≠ [] then (pySplitext file.filename).1
  else if file.name ≠ [] then (pySplitext file.name).1
  else pstr "file_" ++ natToStr clock.epoch

/-- The filename after the naming-mode step (`multi_upload_files.py` lines
180–187). -/
def multiFileName (file : FileInput) (filename_mode : PyStr) (clock : Clock) : PyStr :=
  if filename_mode = pstr "filename_timestamp" then
    multiOriginalName file clock ++ '_' :: (natToStr clock.epoch ++ get_file_extension file)
  else multiOriginalName file clock ++ get_file_extension file

/-- `MultiUploadFilesTool._generate_object_key` (`src/tools/multi_upload_files.py`
lines 153–219).  Note: unlike the single-file tool, the directory is
concatenated as-is, with no trailing-slash normalization. -/
def multi_generate_object_key (file : FileInput) (directory : PyStr)
    (filename_mode directory_mode : PyStr) (clock : Clock) : PyStr :=
  let fname := multiFileName file filename_mode clock
  if directory_mode = pstr "no_subdirectory" then
    (if directory ≠ [] then directory ++ fname else fname)
  else if directory_mode = pstr "yyyy_mm_dd_hierarchy" then
    (if directory ≠ [] then directory ++ (dateHierarchy clock ++ '/' :: fname)
     else dateHierarchy clock ++ '/' :: fname)
  else if directory_mode = pstr "yyyy_mm_dd_combined" then
    (if directory ≠ [] then directory ++ (dateCombined clock ++ '/' :: fname)
     else dateCombined clock ++ '/' :: fname)
  else
    (if directory ≠ [] then directory ++ fname else fname)

/-! ## Extension/MIME mapper -/

/-- The static `extension_to_mime` table (`get_file_by_url.py` lines 70–100,
repeated verbatim in `get_files_by_urls.py` and `get_public_file_by_url.py`). -/
def extension_to_mime : List (String × String) :=
  [("png", "image/png"), ("jpg", "image/jpeg"), ("jpeg", "image/jpeg"),
   ("gif", "image/gif"), ("bmp", "image/bmp"), ("svg", "image/svg+xml"),
   ("webp", "image/webp"), ("pdf", "application/pdf"), ("txt", "text/plain"),
   ("json", "application/json"), ("xml", "application/xml"), ("html", "text/html"),
   ("css", "text/css"), ("js", "application/javascript"), ("zip", "application/zip"),
   ("rar", "application/x-rar-compressed"), ("doc", "application/msword"),
   ("docx", "application/vnd.openxmlformats-officedocument.wordprocessingml.document"),
   ("xls", "application/vnd.ms-excel"),
   ("xlsx", "application/vnd.openxmlformats-officedocument.spreadsheetml.sheet"),
   ("ppt", "application/vnd.ms-powerpoint"),
   ("pptx", "application/vnd.openxmlformats-officedocument.presentationml.presentation"),
   ("mp3", "audio/mpeg"), ("mp4", "video/mp4"), ("avi", "video/x-msvideo"),
   ("mov", "video/quicktime"), ("wmv", "video/x-ms-wmv"), ("flv", "video/x-flv"),
   ("mkv", "video/x-matroska")]

/-- The MIME override (`get_file_by_url.py` lines 69–101): when the extension
is non-empty, `extension_to_mime.get(file_extension, mime_type)`; the fallback
passes through otherwise. -/
def mimeFor (ext fallback : String) : String :=
  if ext ≠ "" then (extension_to_mime.lookup ext).getD fallback else fallback

/-! ## Batch-size guards -/

/-- The control flow of `MultiUploadFilesTool._invoke`
(`src/tools/multi_upload_files.py` lines 26–33 and 59–103): the empty-list
and the more-than-ten-files checks run before any file is processed; the
per-file processing is the abstract `uploadOne`. -/
def multiUploadInvoke {α β : Type} (uploadOne : α → β) (files : List α) :
    Except String (List β) :=
  if files.length = 0 then .error "文件列表不能为空"
  else if files.length > 10 then .error "一次最多只能上传10个文件"
  else .ok (files.map uploadOne)

/-- Split on every ';', as Python `s.split(";")` (auxiliary accumulator form). -/
def splitSemiAux : PyStr → PyStr → List PyStr
  | [], acc => [acc.reverse]
  | c :: cs, acc =>
    if c = ';' then acc.reverse :: splitSemiAux cs [] else splitSemiAux cs (c :: acc)

/-- Python `s.split(";")`. -/
def pySplitSemi (s : PyStr) : List PyStr := splitSemiAux s []

/-- Whitespace characters removed by Python's `str.strip()` (ASCII fragment). -/
def isPySpace (c : Char) : Bool :=
  c == ' ' || c == '\t' || c == '\n' || c == '\r' || c == '\x0b' || c == '\x0c'

/-- Python `s.strip()`. -/
def pyStrip (s : PyStr) : PyStr :=
  ((s.dropWhile isPySpace).reverse.dropWhile isPySpace).reverse

/-- URL-list preprocessing of `GetFilesByUrlsTool._invoke`
(`src/tools/get_files_by_urls.py` line 30): split on ';', strip whitespace,
drop blanks. -/
def parseFileUrls (s : PyStr) : List PyStr :=
  ((pySplitSemi s).map pyStrip).filter (fun u => u ≠ [])

/-- The control flow of `GetFilesByUrlsTool._invoke`
(`src/tools/get_files_by_urls.py` lines 24–37 and 53–163): the emptiness and
more-than-ten-URLs checks run before any URL is processed. -/
def getFilesByUrlsInvoke {β : Type} (downloadOne : PyStr → β) (fileUrlsStr : PyStr) :
    Except String (List β) :=
  if fileUrlsStr = [] then .error "文件URL列表不能为空"
  else
    let urls := parseFileUrls fileUrlsStr
    if urls = [] then .error "文件URL列表不能为空"
    else if urls.length > 10 then .error "一次最多只能下载10个文件"
    else .ok (urls.map downloadOne)

deriving instance DecidableEq for Except

/-! ## Helper lemmas about the string model -/

theorem head?_append_of_ne_nil {a : PyStr} (b : PyStr) (h : a ≠ []) :
    (a ++ b).head? = a.head? := by
  cases a with
  | nil => exact absurd rfl h
  | cons x xs => rfl

theorem append_ne_nil_left {a : PyStr} (b : PyStr) (h : a ≠ []) : a ++ b ≠ [] := by
  intro hab
  exact h (List.append_eq_nil.mp hab).1

theorem append_ne_nil_right (a : PyStr) {b : PyStr} (h : b ≠ []) : a ++ b ≠ [] := by
  intro hab
  exact h (List.append_eq_nil.mp hab).2

theorem takeWhile_eq_self_of_all {p : Char → Bool} {l : PyStr} (h : ∀ a ∈ l, p a = true) :
    l.takeWhile p = l := by
  have := @List.takeWhile_append_of_pos _ p l [] h
  simpa using this

theorem dropWhile_eq_nil_of_all {p : Char → Bool} {l : PyStr} (h : ∀ a ∈ l, p a = true) :
    l.dropWhile p = [] := by
  have := @List.dropWhile_append_of_pos _ p l [] h
  simpa using this

theorem splitAtChar_eq_none_iff (c : Char) : ∀ s : PyStr, splitAtChar c s = none ↔ c ∉ s
  | [] => by simp [splitAtChar]
  | x :: xs => by
    by_cases hx : x = c
    · subst hx
      simp [splitAtChar]
    · rw [splitAtChar, if_neg hx]
      constructor
      · intro h
        have h2 : splitAtChar c xs = none := by
          cases hs : splitAtChar c xs with
          | none => rfl
          | some p => rw [hs] at h; cases h
        have h3 := (splitAtChar_eq_none_iff c xs).mp h2
        intro hmem
        rcases List.mem_cons.mp hmem with he | hm
        · exact hx he.symm
        · exact h3 hm
      · intro h
        have h2 : c ∉ xs := fun hm => h (List.mem_cons_of_mem x hm)
        rw [(splitAtChar_eq_none_iff c xs).mpr h2]
        rfl

theorem splitAtChar_cons_self (c : Char) (s : PyStr) : splitAtChar c (c :: s) = some ([], s) := by
  simp [splitAtChar]

theorem splitAtChar_sound {c : Char} :
    ∀ {s a b : PyStr}, splitAtChar c s = some (a, b) → s = a ++ c :: b ∧ c ∉ a := by
  intro s
  induction s with
  | nil => intro a b h; exact absurd h (by simp [splitAtChar])
  | cons x xs ih =>
    intro a b h
    by_cases hx : x = c
    · subst hx
      rw [splitAtChar_cons_self] at h
      cases h
      exact ⟨rfl, by simp⟩
    · rw [splitAtChar, if_neg hx] at h
      cases hs : splitAtChar c xs with
      | none => rw [hs] at h; cases h
      | some p =>
        rw [hs] at h
        cases h
        obtain ⟨h1, h2⟩ := ih hs
        refine ⟨by rw [List.cons_append, ← h1], ?_⟩
        intro hmem
        rcases List.mem_cons.mp hmem with he | hm
        · exact hx he.symm
        · exact h2 hm

theorem splitAtChar_append_of_not_mem {c : Char} {l₁ : PyStr} (l₂ : PyStr) (h : c ∉ l₁) :
    splitAtChar c (l₁ ++ l₂) = (splitAtChar c l₂).map (fun p => (l₁ ++ p.1, p.2)) := by
  induction l₁ with
  | nil =>
    simp
  | cons x xs ih =>
    have hx : x ≠ c := fun he => h (he ▸ List.mem_cons_self x xs)
    have hxs : c ∉ xs := fun hm => h (List.mem_cons_of_mem x hm)
    rw [List.cons_append, splitAtChar, if_neg hx, ih hxs]
    cases splitAtChar c l₂ <;> simp

theorem isPrefixOf_self_append (l t : PyStr) : l.isPrefixOf (l ++ t) = true := by
  induction l with
  | nil => simp [List.isPrefixOf]
  | cons a as ih => simp [List.isPrefixOf, ih]

theorem mem_of_isPrefixOf : ∀ {p s : PyStr}, p.isPrefixOf s = true → ∀ {c : Char}, c ∈ p → c ∈ s := by
  intro p
  induction p with
  | nil => intro s _ c hc; exact absurd hc (List.not_mem_nil c)
  | cons a as ih =>
    intro s h c hc
    cases s with
    | nil => exact absurd h (by simp [List.isPrefixOf])
    | cons b bs =>
      rw [List.isPrefixOf, Bool.and_eq_true, beq_iff_eq] at h
      rcases List.mem_cons.mp hc with he | hm
      · exact List.mem_cons.mpr (Or.inl (he.trans h.1))
      · exact List.mem_cons.mpr (Or.inr (ih h.2 hm))

theorem startsWith_false_of_not_mem {s p : PyStr} {c : Char} (hc : c ∈ p) (hs : c ∉ s) :
    startsWith s p = false := by
  cases h : startsWith s p with
  | false => rfl
  | true => exact absurd (mem_of_isPrefixOf h hc) hs

theorem isSuffixOf_append_self (l₁ l₂ : PyStr) : l₁.isSuffixOf (l₂ ++ l₁) = true := by
  unfold List.isSuffixOf
  rw [List.reverse_append]
  exact isPrefixOf_self_append _ _

theorem pyLower_append (a b : PyStr) : pyLower (a ++ b) = pyLower a ++ pyLower b :=
  List.map_append lowerChar a b

theorem pyLower_cons (c : Char) (s : PyStr) : pyLower (c :: s) = lowerChar c :: pyLower s := rfl

theorem pyLower_length (s : PyStr) : (pyLower s).length = s.length := List.length_map s lowerChar

theorem startsWith_cons_iff (c x : Char) (xs : PyStr) :
    startsWith (x :: xs) [c] = true ↔ x = c := by
  simp only [startsWith, List.isPrefixOf, Bool.and_eq_true, beq_iff_eq]
  constructor
  · intro h
    exact h.1.symm
  · intro h
    exact ⟨h.symm, by simp [List.isPrefixOf]⟩

theorem startsWith_single_head {s : PyStr} {c : Char} :
    startsWith s [c] = false ↔ s.head? ≠ some c := by
  cases s with
  | nil => simp [startsWith, List.isPrefixOf]
  | cons x xs =>
    have h1 : startsWith (x :: xs) [c] = false ↔ ¬ x = c := by
      rw [← startsWith_cons_iff c x xs]
      cases startsWith (x :: xs) [c] <;> simp
    rw [h1]
    simp

/-! ## Lemmas about the urlparse model -/

theorem splitSchemePart_https (r : PyStr) :
    splitSchemePart (pstr "https://" ++ r) = (pstr "https", '/' :: '/' :: r) := by
  have hsplit : splitAtChar ':' (pstr "https://" ++ r)
      = some (pstr "https", '/' :: '/' :: r) := by
    show splitAtChar ':' (pstr "https" ++ ':' :: '/' :: '/' :: r) = _
    rw [splitAtChar_append_of_not_mem _ (by decide), splitAtChar_cons_self]
    simp
  unfold splitSchemePart
  rw [hsplit]
  rfl

theorem splitNetlocPart_slashes (r : PyStr) :
    splitNetlocPart ('/' :: '/' :: r) = (r.takeWhile netlocOk, r.dropWhile netlocOk) := by
  have hpre : startsWith ('/' :: '/' :: r) ['/', '/'] = true := by
    simp [startsWith, List.isPrefixOf]
  simp only [splitNetlocPart, hpre, if_true]
  rfl

theorem splitTail_of_not_mem {c : Char} {s : PyStr} (h : c ∉ s) : splitTail c s = (s, []) := by
  unfold splitTail
  rw [(splitAtChar_eq_none_iff c s).mpr h]

theorem splitParams_of_not_mem {s : PyStr} (h : ';' ∉ s) : splitParams s = (s, []) := by
  unfold splitParams
  rw [if_neg h]

/-- `urlparse` applied to `https://<host>` when the host contains no netloc
delimiter: the host is the netloc and the path is empty. -/
theorem pyUrlparse_host (h : PyStr) (hh : ∀ c ∈ h, netlocOk c = true) :
    pyUrlparse (pstr "https://" ++ h) = ⟨pstr "https", h, [], [], [], []⟩ := by
  simp only [pyUrlparse, splitSchemePart_https, splitNetlocPart_slashes,
    takeWhile_eq_self_of_all hh, dropWhile_eq_nil_of_all hh]
  rfl

/-- `urlparse` applied to `https://<netloc>/<tail>` when the netloc contains
no delimiter and the tail contains no '?', '#' or ';'. -/
theorem pyUrlparse_hostpath (netloc tail : PyStr)
    (hn : ∀ c ∈ netloc, netlocOk c = true)
    (ht : ∀ c ∈ tail, c ≠ '?' ∧ c ≠ '#' ∧ c ≠ ';') :
    pyUrlparse (pstr "https://" ++ (netloc ++ '/' :: tail))
      = ⟨pstr "https", netloc, '/' :: tail, [], [], []⟩ := by
  have htake : (netloc ++ '/' :: tail).takeWhile netlocOk = netloc := by
    rw [List.takeWhile_append_of_pos hn, List.takeWhile_cons_of_neg (by decide)]
    simp
  have hdrop : (netloc ++ '/' :: tail).dropWhile netlocOk = '/' :: tail := by
    rw [List.dropWhile_append_of_pos hn, List.dropWhile_cons_of_neg (by decide)]
  have hhash : '#' ∉ '/' :: tail := by
    intro hm
    rcases List.mem_cons.mp hm with he | hm
    · cases he
    · exact (ht _ hm).2.1 rfl
  have hq : '?' ∉ '/' :: tail := by
    intro hm
    rcases List.mem_cons.mp hm with he | hm
    · cases he
    · exact (ht _ hm).1 rfl
  have hsemi : ';' ∉ '/' :: tail := by
    intro hm
    rcases List.mem_cons.mp hm with he | hm
    · cases he
    · exact (ht _ hm).2.2 rfl
  simp only [pyUrlparse, splitSchemePart_https, splitNetlocPart_slashes, htake, hdrop,
    splitTail_of_not_mem hhash, splitTail_of_not_mem hq, splitParams_of_not_mem hsemi]

/-- A host made only of netloc-safe characters never starts with a scheme
prefix, so normalization prepends `https://`. -/
theorem normEndpoint_of_host {h : PyStr} (hh : ∀ c ∈ h, netlocOk c = true) :
    normEndpoint h = pstr "https://" ++ h := by
  have hslash : '/' ∉ h := by
    intro hm
    have := hh _ hm
    simp [netlocOk] at this
  unfold normEndpoint
  rw [startsWith_false_of_not_mem (by decide : '/' ∈ pstr "http://") hslash,
    startsWith_false_of_not_mem (by decide : '/' ∈ pstr "https://") hslash]
  rfl

/-- The endpoint host for a plain, scheme-less host string. -/
theorem endpointHostOf_host {h : PyStr} (hne : h ≠ []) (hh : ∀ c ∈ h, netlocOk c = true) :
    endpointHostOf h = pyLower h := by
  simp only [endpointHostOf, normEndpoint_of_host hh, pyUrlparse_host h hh]
  simp [pyOr, hne]

/-! ## Lemmas about decimal rendering and date prefixes -/

theorem digitCharOf_isDigit (n : Nat) : (digitCharOf n).isDigit = true := by
  unfold digitCharOf
  split <;> decide

theorem digitsFuel_mem : ∀ (fuel n : Nat) (acc : PyStr) (c : Char),
    c ∈ digitsFuel fuel n acc → c.isDigit = true ∨ c ∈ acc := by
  intro fuel
  induction fuel with
  | zero => intro n acc c hc; exact Or.inr hc
  | succ f ih =>
    intro n acc c hc
    simp only [digitsFuel] at hc
    by_cases hn : n < 10
    · rw [if_pos hn] at hc
      rcases List.mem_cons.mp hc with he | hm
      · exact Or.inl (he ▸ digitCharOf_isDigit n)
      · exact Or.inr hm
    · rw [if_neg hn] at hc
      rcases ih _ _ _ hc with hd | hm
      · exact Or.inl hd
      · rcases List.mem_cons.mp hm with he | hm2
        · exact Or.inl (he ▸ digitCharOf_isDigit (n % 10))
        · exact Or.inr hm2

theorem digitsFuel_ne_nil : ∀ (fuel n : Nat) (acc : PyStr),
    fuel ≠ 0 ∨ acc ≠ [] → digitsFuel fuel n acc ≠ [] := by
  intro fuel
  induction fuel with
  | zero =>
    intro n acc h
    rcases h with h | h
    · exact absurd rfl h
    · exact h
  | succ f ih =>
    intro n acc _
    simp only [digitsFuel]
    by_cases hn : n < 10
    · rw [if_pos hn]; exact List.cons_ne_nil _ _
    · rw [if_neg hn]; exact ih _ _ (Or.inr (List.cons_ne_nil _ _))

theorem natToStr_ne_nil (n : Nat) : natToStr n ≠ [] :=
  digitsFuel_ne_nil _ _ _ (Or.inl (Nat.succ_ne_zero n))

theorem natToStr_mem_isDigit {n : Nat} {c : Char} (h : c ∈ natToStr n) : c.isDigit = true := by
  rcases digitsFuel_mem _ _ _ _ h with hd | hm
  · exact hd
  · exact absurd hm (List.not_mem_nil c)

theorem pad_ne_nil (w n : Nat) : pad w n ≠ [] :=
  append_ne_nil_right _ (natToStr_ne_nil n)

theorem pad_head_not_slash (w n : Nat) : (pad w n).head? ≠ some '/' := by
  simp only [pad]
  cases hk : w - (natToStr n).length with
  | zero =>
    simp only [List.replicate, List.nil_append]
    cases hd : natToStr n with
    | nil => exact absurd hd (natToStr_ne_nil n)
    | cons c t =>
      have hdig : c.isDigit = true := natToStr_mem_isDigit (hd ▸ List.mem_cons_self c t)
      intro he
      rw [List.head?_cons, Option.some_inj] at he
      rw [he] at hdig
      exact absurd hdig (by decide)
  | succ k =>
    rw [List.replicate_succ, List.cons_append]
    intro he
    rw [List.head?_cons, Option.some_inj] at he
    cases he

theorem dateHierarchy_ne_nil (c : Clock) : dateHierarchy c ≠ [] :=
  append_ne_nil_left _ (pad_ne_nil 4 c.year)

theorem dateHierarchy_head (c : Clock) : (dateHierarchy c).head? ≠ some '/' := by
  unfold dateHierarchy
  rw [head?_append_of_ne_nil _ (pad_ne_nil 4 c.year)]
  exact pad_head_not_slash 4 c.year

theorem dateCombined_ne_nil (c : Clock) : dateCombined c ≠ [] := by
  unfold dateCombined
  exact append_ne_nil_left _ (append_ne_nil_left _ (pad_ne_nil 4 c.year))

theorem dateCombined_head (c : Clock) : (dateCombined c).head? ≠ some '/' := by
  unfold dateCombined
  rw [head?_append_of_ne_nil _ (append_ne_nil_left _ (pad_ne_nil 4 c.year)),
    head?_append_of_ne_nil _ (pad_ne_nil 4 c.year)]
  exact pad_head_not_slash 4 c.year

/-! ## Lemmas about splitext and the generated filenames -/

theorem splitAtLastChar_sound {c : Char} {s pre after : PyStr}
    (h : splitAtLastChar c s = some (pre, after)) : s = pre ++ c :: after ∧ c ∉ after := by
  unfold splitAtLastChar at h
  cases hs : splitAtChar c s.reverse with
  | none => rw [hs] at h; cases h
  | some pr =>
    obtain ⟨a, b⟩ := pr
    rw [hs] at h
    injection h with h
    injection h with h1 h2
    obtain ⟨hsr, hna⟩ := splitAtChar_sound hs
    constructor
    · rw [← h1, ← h2]
      have : s = s.reverse.reverse := (List.reverse_reverse s).symm
      rw [this, hsr]
      rw [List.reverse_append, List.reverse_cons, List.append_assoc]
      rfl
    · rw [← h2]
      intro hm
      exact hna (List.mem_reverse.mp hm)

theorem splitAtLastChar_eq_none_iff (c : Char) (s : PyStr) :
    splitAtLastChar c s = none ↔ c ∉ s := by
  unfold splitAtLastChar
  cases hs : splitAtChar c s.reverse with
  | none =>
    have h2 : c ∉ s := fun hm =>
      ((splitAtChar_eq_none_iff c s.reverse).mp hs) (List.mem_reverse.mpr hm)
    simp [h2]
  | some pr =>
    obtain ⟨a, b⟩ := pr
    have hsr := (splitAtChar_sound hs).1
    have hc : c ∈ s := by
      rw [← List.mem_reverse, hsr]
      exact List.mem_append.mpr (Or.inr (List.mem_cons_self c b))
    simp [hc]

theorem splitextBase_fst {base : PyStr} (hb : base ≠ []) :
    (splitextBase base).1 ≠ [] ∧ (splitextBase base).1.head? = base.head? := by
  cases base with
  | nil => exact absurd rfl hb
  | cons b0 bs =>
    by_cases hb0 : b0 = '.'
    · subst hb0
      have htw : ('.' :: bs).takeWhile (fun c => c == '.')
          = '.' :: bs.takeWhile (fun c => c == '.') :=
        List.takeWhile_cons_of_pos (by decide)
      simp only [splitextBase, htw]
      cases splitAtLastChar '.' (('.' :: bs).dropWhile (fun c => c == '.')) with
      | none => exact ⟨List.cons_ne_nil _ _, rfl⟩
      | some pr => exact ⟨List.cons_ne_nil _ _, rfl⟩
    · have htw : (b0 :: bs).takeWhile (fun c => c == '.') = [] :=
        List.takeWhile_cons_of_neg (by simp [hb0])
      have hdw : (b0 :: bs).dropWhile (fun c => c == '.') = b0 :: bs :=
        List.dropWhile_cons_of_neg (by simp [hb0])
      simp only [splitextBase, htw, hdw]
      cases hs : splitAtLastChar '.' (b0 :: bs) with
      | none => simp
      | some pr =>
        obtain ⟨pre, after⟩ := pr
        have hsound := (splitAtLastChar_sound hs).1
        cases pre with
        | nil =>
          rw [List.nil_append] at hsound
          injection hsound with h1 _
          exact absurd h1 hb0
        | cons p0 ps =>
          injection hsound with h1 _
          subst h1
          simp

theorem pySplitext_fst {p : PyStr} (hp : p ≠ []) :
    (pySplitext p).1 ≠ [] ∧ (pySplitext p).1.head? = p.head? := by
  simp only [pySplitext]
  cases hs : splitAtLastChar '/' p with
  | none => exact splitextBase_fst hp
  | some pr =>
    obtain ⟨pre, base⟩ := pr
    have hsound := (splitAtLastChar_sound hs).1
    constructor
    · exact append_ne_nil_right _ (List.cons_ne_nil _ _)
    · rw [hsound]
      cases pre with
      | nil => rfl
      | cons q qs => rfl

theorem uploadFileName_ne_nil (file : FileInput) (fn : PyStr) (clock : Clock) :
    uploadFileName file fn clock ≠ [] := by
  simp only [uploadFileName]
  split
  next hfn =>
    split
    next => exact hfn
    next => exact append_ne_nil_left _ hfn
  next =>
    split
    next hff => exact append_ne_nil_left _ (pySplitext_fst hff).1
    next =>
      split
      next hn => exact append_ne_nil_left _ (pySplitext_fst hn).1
      next =>
        exact append_ne_nil_left _ (append_ne_nil_left _ (List.cons_ne_nil _ _))

theorem uploadFileName_head (file : FileInput) (fn : PyStr) (clock : Clock)
    (hfn : fn.head? ≠ some '/')
    (hff : file.filename.head? ≠ some '/')
    (hn : file.name.head? ≠ some '/') :
    (uploadFileName file fn clock).head? ≠ some '/' := by
  simp only [uploadFileName]
  split
  next hfne =>
    split
    next => exact hfn
    next => rw [head?_append_of_ne_nil _ hfne]; exact hfn
  next =>
    split
    next hffe =>
      rw [head?_append_of_ne_nil _ (pySplitext_fst hffe).1, (pySplitext_fst hffe).2]
      exact hff
    next =>
      split
      next hne =>
        rw [head?_append_of_ne_nil _ (pySplitext_fst hne).1, (pySplitext_fst hne).2]
        exact hn
      next =>
        rw [head?_append_of_ne_nil _
            (append_ne_nil_left _ (show pstr "file_" ≠ [] by decide)),
          head?_append_of_ne_nil _ (show pstr "file_" ≠ [] by decide)]
        decide

theorem uploadFileName2_ne_nil (file : FileInput) (fn fm : PyStr) (clock : Clock) :
    uploadFileName2 file fn fm clock ≠ [] := by
  simp only [uploadFileName2]
  split
  · exact append_ne_nil_left _ (pySplitext_fst (uploadFileName_ne_nil file fn clock)).1
  · exact uploadFileName_ne_nil file fn clock

theorem uploadFileName2_head (file : FileInput) (fn fm : PyStr) (clock : Clock)
    (hfn : fn.head? ≠ some '/')
    (hff : file.filename.head? ≠ some '/')
    (hn : file.name.head? ≠ some '/') :
    (uploadFileName2 file fn fm clock).head? ≠ some '/' := by
  simp only [uploadFileName2]
  split
  · rw [head?_append_of_ne_nil _ (pySplitext_fst (uploadFileName_ne_nil file fn clock)).1,
      (pySplitext_fst (uploadFileName_ne_nil file fn clock)).2]
    exact uploadFileName_head file fn clock hfn hff hn
  · exact uploadFileName_head file fn clock hfn hff hn

theorem multiOriginalName_ne_nil (file : FileInput) (clock : Clock) :
    multiOriginalName file clock ≠ [] := by
  simp only [multiOriginalName]
  split
  next hff => exact (pySplitext_fst hff).1
  next =>
    split
    next hn => exact (pySplitext_fst hn).1
    next => exact append_ne_nil_left _ (List.cons_ne_nil _ _)

theorem multiOriginalName_head (file : FileInput) (clock : Clock)
    (hff : file.filename.head? ≠ some '/')
    (hn : file.name.head? ≠ some '/') :
    (multiOriginalName file clock).head? ≠ some '/' := by
  simp only [multiOriginalName]
  split
  next hffe => rw [(pySplitext_fst hffe).2]; exact hff
  next =>
    split
    next hne => rw [(pySplitext_fst hne).2]; exact hn
    next =>
      rw [head?_append_of_ne_nil _ (show pstr "file_" ≠ [] by decide)]
      decide

theorem multiFileName_ne_nil (file : FileInput) (fm : PyStr) (clock : Clock) :
    multiFileName file fm clock ≠ [] := by
  simp only [multiFileName]
  split
  · exact append_ne_nil_left _ (multiOriginalName_ne_nil file clock)
  · exact append_ne_nil_left _ (multiOriginalName_ne_nil file clock)

theorem multiFileName_head (file : FileInput) (fm : PyStr) (clock : Clock)
    (hff : file.filename.head? ≠ some '/')
    (hn : file.name.head? ≠ some '/') :
    (multiFileName file fm clock).head? ≠ some '/' := by
  simp only [multiFileName]
  split
  · rw [head?_append_of_ne_nil _ (multiOriginalName_ne_nil file clock)]
    exact multiOriginalName_head file clock hff hn
  · rw [head?_append_of_ne_nil _ (multiOriginalName_ne_nil file clock)]
    exact multiOriginalName_head file clock hff hn

theorem dirSlash_ne_nil {d : PyStr} (h : d ≠ []) : dirSlash d ≠ [] := by
  unfold dirSlash
  split
  · exact h
  · exact append_ne_nil_left _ h

theorem dirSlash_head {d : PyStr} (h : d ≠ []) : (dirSlash d).head? = d.head? := by
  unfold dirSlash
  split
  · rfl
  · exact head?_append_of_ne_nil _ h

theorem generate_object_key_ne_nil (file : FileInput) (fn dir fm dm : PyStr) (clock : Clock) :
    generate_object_key file fn dir fm dm clock ≠ [] := by
  simp only [generate_object_key]
  split
  · split
    next hd => exact append_ne_nil_right _ (uploadFileName2_ne_nil file fn fm clock)
    next => exact uploadFileName2_ne_nil file fn fm clock
  · split
    · split
      next => exact append_ne_nil_right _ (append_ne_nil_right _ (List.cons_ne_nil _ _))
      next => exact append_ne_nil_right _ (List.cons_ne_nil _ _)
    · split
      · split
        next => exact append_ne_nil_right _ (append_ne_nil_right _ (List.cons_ne_nil _ _))
        next => exact append_ne_nil_right _ (List.cons_ne_nil _ _)
      · split
        next => exact append_ne_nil_right _ (uploadFileName2_ne_nil file fn fm clock)
        next => exact uploadFileName2_ne_nil file fn fm clock

/-! ## Claim theorems -/

/-- C5: the spec (§4.1 Flat, §9) requires the Flat prefix to be the caller
directory normalized to end with exactly one '/', with both upload tools
behaving alike.  The code diverges: at directory "a" the single-file tool
yields "a/f.txt" while the multi-file tool concatenates as-is and yields
"af.txt"; moreover at directory "a//" the single-file tool keeps both
trailing slashes. -/
theorem c5_flat_directory_inconsistency :
    generate_object_key ⟨pstr "f.txt", []⟩ [] (pstr "a") (pstr "filename")
        (pstr "no_subdirectory") ⟨1700000000, 2023, 11, 14⟩ = pstr "a/f.txt"
      ∧ multi_generate_object_key ⟨pstr "f.txt", []⟩ (pstr "a") (pstr "filename")
        (pstr "no_subdirectory") ⟨1700000000, 2023, 11, 14⟩ = pstr "af.txt"
      ∧ (pstr "a/f.txt" : PyStr) ≠ pstr "af.txt"
      ∧ generate_object_key ⟨pstr "f.txt", []⟩ [] (pstr "a//") (pstr "filename")
        (pstr "no_subdirectory") ⟨1700000000, 2023, 11, 14⟩ = pstr "a//f.txt" :=
  ⟨rfl, rfl, by decide, rfl⟩

/-- C6: idempotence of endpoint normalization: for every URL string, resolving
with endpoint "example.com" and with endpoint "https://example.com" produces
identical results (the same (bucket, key) pair on success and the same error
on failure). -/
theorem c6_endpoint_normalization_idempotent (url : PyStr) :
    parseUrl (pstr "example.com") url = parseUrl (pstr "https://example.com") url := by
  have h1 : endpointHostOf (pstr "example.com")
      = endpointHostOf (pstr "https://example.com") := rfl
  have h2 : ¬ (pstr "example.com" : PyStr) = [] := by decide
  have h3 : ¬ (pstr "https://example.com" : PyStr) = [] := by decide
  simp only [parseUrl]
  rw [if_neg h2, if_neg h3, h1]

/-- C7: the Object-Key Builder is total (it is a plain function in this
embedding, with no error outcome) and every directory-mode string outside
the three recognized values produces exactly the same object key as the Flat
strategy ("no_subdirectory"), for both upload tools. -/
theorem c7_unknown_directory_mode_falls_back_to_flat
    (file : FileInput) (fn dir fm dm : PyStr) (clock : Clock)
    (h1 : dm ≠ pstr "no_subdirectory")
    (h2 : dm ≠ pstr "yyyy_mm_dd_hierarchy")
    (h3 : dm ≠ pstr "yyyy_mm_dd_combined") :
    generate_object_key file fn dir fm dm clock
        = generate_object_key file fn dir fm (pstr "no_subdirectory") clock
      ∧ multi_generate_object_key file dir fm dm clock
        = multi_generate_object_key file dir fm (pstr "no_subdirectory") clock := by
  constructor
  · simp only [generate_object_key, if_neg h1, if_neg h2, if_neg h3, if_pos rfl, if_true]
  · simp only [multi_generate_object_key, if_neg h1, if_neg h2, if_neg h3, if_pos rfl,
      if_true]

theorem c7_witness :
    generate_object_key ⟨pstr "f.txt", []⟩ [] (pstr "d") (pstr "filename")
        (pstr "weird_mode") ⟨1700000000, 2023, 11, 14⟩
      = generate_object_key ⟨pstr "f.txt", []⟩ [] (pstr "d") (pstr "filename")
        (pstr "no_subdirectory") ⟨1700000000, 2023, 11, 14⟩
      ∧ multi_generate_object_key ⟨pstr "f.txt", []⟩ (pstr "d") (pstr "filename")
        (pstr "weird_mode") ⟨1700000000, 2023, 11, 14⟩
      = multi_generate_object_key ⟨pstr "f.txt", []⟩ (pstr "d") (pstr "filename")
        (pstr "no_subdirectory") ⟨1700000000, 2023, 11, 14⟩ :=
  c7_unknown_directory_mode_falls_back_to_flat _ _ _ _ _ _
    (by decide) (by decide) (by decide)

/-- C9: the Extension/MIME Mapper is total: every key of the static table maps
to its MIME value (in particular "png" with fallback "application/octet-stream"
yields "image/png"), and every extension absent from the table returns the
fallback unchanged; there is no failure outcome. -/
theorem c9_mime_mapper_total :
    (∀ p ∈ extension_to_mime, ∀ fb : String, mimeFor p.1 fb = p.2)
      ∧ (∀ (ext fb : String), extension_to_mime.lookup ext = none → mimeFor ext fb = fb)
      ∧ mimeFor "png" "application/octet-stream" = "image/png" := by
  refine ⟨?_, ?_, rfl⟩
  · intro p hp fb
    fin_cases hp <;> rfl
  · intro ext fb hlk
    unfold mimeFor
    split
    · rw [hlk]
      rfl
    · rfl

theorem c9_witness :
    mimeFor "png" "application/octet-stream" = "image/png"
      ∧ mimeFor "xyz123" "application/octet-stream" = "application/octet-stream" :=
  ⟨c9_mime_mapper_total.1 ("png", "image/png") (by decide) _,
   c9_mime_mapper_total.2.1 "xyz123" "application/octet-stream" (by decide)⟩

/-- C10: batch limits: the multi-upload tool rejects more than 10 files and
the multi-download tool rejects more than 10 non-blank semicolon-separated
URLs before processing any item (the result is the limit error regardless of
the per-item action). -/
theorem c10_batch_limits {α β γ : Type} (uploadOne : α → β) (downloadOne : PyStr → γ)
    (files : List α) (s : PyStr)
    (hf : files.length > 10) (hu : (parseFileUrls s).length > 10) :
    multiUploadInvoke uploadOne files = .error "一次最多只能上传10个文件"
      ∧ getFilesByUrlsInvoke downloadOne s = .error "一次最多只能下载10个文件" := by
  constructor
  · unfold multiUploadInvoke
    rw [if_neg (by omega : ¬ files.length = 0), if_pos hf]
  · simp only [getFilesByUrlsInvoke]
    have hs : ¬ s = [] := by
      intro he
      subst he
      exact absurd hu (by decide)
    have hne : ¬ parseFileUrls s = [] := by
      intro he
      rw [he] at hu
      exact absurd hu (by decide)
    rw [if_neg hs, if_neg hne, if_pos hu]

theorem c10_witness :
    multiUploadInvoke (fun n : Nat => n) (List.replicate 11 0)
        = .error "一次最多只能上传10个文件"
      ∧ getFilesByUrlsInvoke (fun u => u) (pstr "a;a;a;a;a;a;a;a;a;a;a")
        = .error "一次最多只能下载10个文件" :=
  c10_batch_limits _ _ _ _ (by decide) (by decide)

/-- C1 is false as stated: the Object-Key Builder can produce a key containing
'?' (explicit filename "x?y" with a ".txt" file gives key "x?y.txt"), and the
URL query split then truncates the key, so the round trip returns "x" instead
of "x?y.txt" (bucket "b" contains neither '.' nor '/'). -/
theorem c1_counterexample :
    generate_object_key ⟨pstr "f.txt", []⟩ (pstr "x?y") [] (pstr "filename")
        (pstr "no_subdirectory") ⟨1700000000, 2023, 11, 14⟩ = pstr "x?y.txt"
      ∧ parseUrl (pstr "example.com")
          (pstr "https://" ++ (pstr "example.com" ++ '/' :: (pstr "b" ++ '/' ::
            generate_object_key ⟨pstr "f.txt", []⟩ (pstr "x?y") [] (pstr "filename")
              (pstr "no_subdirectory") ⟨1700000000, 2023, 11, 14⟩)))
        = .ok (pstr "b", pstr "x")
      ∧ (Except.ok (pstr "b", pstr "x") : Except PyStr (PyStr × PyStr))
        ≠ .ok (pstr "b", pstr "x?y.txt") := by
  refine ⟨rfl, rfl, by decide⟩

/-- C2 is false as stated: with caller directory "/" the single-file builder
returns "/f.txt", which starts with '/'. -/
theorem c2_counterexample :
    generate_object_key ⟨pstr "f.txt", []⟩ [] (pstr "/") (pstr "filename")
        (pstr "no_subdirectory") ⟨1700000000, 2023, 11, 14⟩ = pstr "/f.txt"
      ∧ startsWith (generate_object_key ⟨pstr "f.txt", []⟩ [] (pstr "/") (pstr "filename")
        (pstr "no_subdirectory") ⟨1700000000, 2023, 11, 14⟩) ['/'] = true :=
  ⟨rfl, by decide⟩

/-- C3 is false as stated: for bucket "b" (no '.') and the non-empty key "/x",
the resolver strips every leading slash of the path and returns key "x". -/
theorem c3_counterexample :
    parseUrl (pstr "example.com") (pstr "https://b.example.com//x")
        = .ok (pstr "b", pstr "x")
      ∧ parseUrl (pstr "example.com") (pstr "https://b.example.com//x")
        ≠ .ok (pstr "b", pstr "/x") := by
  refine ⟨rfl, by decide⟩

/-- C2 (amended): the object key produced by either upload tool never starts
with '/', provided the caller directory, the explicit filename, and the file's
probed names do not themselves start with '/'.  (As stated the claim is false:
see the counterexample with directory "/".) -/
theorem c2_object_key_no_leading_slash
    (file : FileInput) (fn dir fm dm : PyStr) (clock : Clock)
    (hdir : startsWith dir ['/'] = false)
    (hfn : startsWith fn ['/'] = false)
    (hff : startsWith file.filename ['/'] = false)
    (hn : startsWith file.name ['/'] = false) :
    startsWith (generate_object_key file fn dir fm dm clock) ['/'] = false
      ∧ startsWith (multi_generate_object_key file dir fm dm clock) ['/'] = false := by
  rw [startsWith_single_head] at hdir hfn hff hn
  constructor
  · rw [startsWith_single_head]
    simp only [generate_object_key]
    split
    · split
      next hd =>
        rw [head?_append_of_ne_nil _ (dirSlash_ne_nil hd), dirSlash_head hd]
        exact hdir
      next => exact uploadFileName2_head file fn fm clock hfn hff hn
    · split
      · split
        next hd =>
          rw [head?_append_of_ne_nil _ (dirSlash_ne_nil hd), dirSlash_head hd]
          exact hdir
        next =>
          rw [head?_append_of_ne_nil _ (dateHierarchy_ne_nil clock)]
          exact dateHierarchy_head clock
      · split
        · split
          next hd =>
            rw [head?_append_of_ne_nil _ (dirSlash_ne_nil hd), dirSlash_head hd]
            exact hdir
          next =>
            rw [head?_append_of_ne_nil _ (dateCombined_ne_nil clock)]
            exact dateCombined_head clock
        · split
          next hd =>
            rw [head?_append_of_ne_nil _ (dirSlash_ne_nil hd), dirSlash_head hd]
            exact hdir
          next => exact uploadFileName2_head file fn fm clock hfn hff hn
  · rw [startsWith_single_head]
    simp only [multi_generate_object_key]
    split
    · split
      next hd =>
        rw [head?_append_of_ne_nil _ hd]
        exact hdir
      next => exact multiFileName_head file fm clock hff hn
    · split
      · split
        next hd =>
          rw [head?_append_of_ne_nil _ hd]
          exact hdir
        next =>
          rw [head?_append_of_ne_nil _ (dateHierarchy_ne_nil clock)]
          exact dateHierarchy_head clock
      · split
        · split
          next hd =>
            rw [head?_append_of_ne_nil _ hd]
            exact hdir
          next =>
            rw [head?_append_of_ne_nil _ (dateCombined_ne_nil clock)]
            exact dateCombined_head clock
        · split
          next hd =>
            rw [head?_append_of_ne_nil _ hd]
            exact hdir
          next => exact multiFileName_head file fm clock hff hn

theorem c2_witness :
    startsWith (generate_object_key ⟨pstr "f.txt", []⟩ [] (pstr "d") (pstr "filename")
        (pstr "no_subdirectory") ⟨1700000000, 2023, 11, 14⟩) ['/'] = false
      ∧ startsWith (multi_generate_object_key ⟨pstr "f.txt", []⟩ (pstr "d") (pstr "filename")
        (pstr "no_subdirectory") ⟨1700000000, 2023, 11, 14⟩) ['/'] = false :=
  c2_object_key_no_leading_slash _ _ _ _ _ _
    (by decide) (by decide) (by decide) (by decide)

/-- C4: for every configured endpoint and every URL whose host matches the
endpoint (path style or virtual-host style) but whose extracted object key is
empty, the resolver fails with an error rather than returning a result. -/
theorem c4_empty_key_fails (e u : PyStr)
    (he : ¬ e = [])
    (hmatch : urlHostOf u = endpointHostOf e
      ∨ endsWith (urlHostOf u) ('.' :: endpointHostOf e) = true)
    (hkey : extractedKey e u = []) :
    ∃ msg, parseUrl e u = .error msg := by
  simp only [parseUrl, if_neg he]
  by_cases h1 : urlHostOf u = endpointHostOf e
  · rw [if_pos h1]
    unfold extractedKey at hkey
    rw [if_pos h1] at hkey
    by_cases hb : (pySplit1 '/' (lstripSlash (pyUrlparse u).path)).1 = []
    · rw [if_pos hb]
      exact ⟨_, rfl⟩
    · rw [if_neg hb, if_pos hkey]
      exact ⟨_, rfl⟩
  · rcases hmatch with h | h
    · exact absurd h h1
    · rw [if_neg h1, if_pos h]
      unfold extractedKey at hkey
      rw [if_neg h1] at hkey
      rw [if_pos hkey]
      exact ⟨_, rfl⟩

theorem c4_witness :
    ∃ msg, parseUrl (pstr "obs.example.com") (pstr "https://obs.example.com/bucketonly")
      = .error msg :=
  c4_empty_key_fails _ _ (by decide) (Or.inl (by decide)) (by decide)

/-- C8: for every configured endpoint and every URL with a host (netloc) that
neither equals the endpoint host nor ends with '.' followed by it, the
resolver fails with the mismatch error, whose message contains both the URL's
host and the expected endpoint host as substrings. -/
theorem c8_mismatch_error_names_both_hosts (e u : PyStr)
    (he : ¬ e = [])
    (h1 : urlHostOf u ≠ endpointHostOf e)
    (h2 : endsWith (urlHostOf u) ('.' :: endpointHostOf e) = false) :
    parseUrl e u
        = .error (wrapParseErr (errMismatch (pyUrlparse u).netloc (endpointHostOf e)))
      ∧ (∃ x y, wrapParseErr (errMismatch (pyUrlparse u).netloc (endpointHostOf e))
          = x ++ (pyUrlparse u).netloc ++ y)
      ∧ (∃ x y, wrapParseErr (errMismatch (pyUrlparse u).netloc (endpointHostOf e))
          = x ++ endpointHostOf e ++ y) := by
  refine ⟨?_, ?_, ?_⟩
  · simp only [parseUrl, if_neg he, if_neg h1]
    rw [if_neg (by simp [h2])]
  · refine ⟨pstr "URL解析失败: " ++ pstr "URL与endpoint不匹配: ",
      pstr " != " ++ endpointHostOf e, ?_⟩
    simp [wrapParseErr, errMismatch, List.append_assoc]
  · refine ⟨pstr "URL解析失败: " ++ (pstr "URL与endpoint不匹配: "
      ++ (pyUrlparse u).netloc ++ pstr " != "), [], ?_⟩
    simp [wrapParseErr, errMismatch, List.append_assoc]

theorem c8_witness :
    parseUrl (pstr "obs.example.com") (pstr "https://other.example.com/b/k")
      = .error (wrapParseErr (errMismatch (pstr "other.example.com")
          (pstr "obs.example.com"))) :=
  (c8_mismatch_error_names_both_hosts (pstr "obs.example.com")
    (pstr "https://other.example.com/b/k") (by decide) (by decide) (by decide)).1

theorem netlocOk_eq_true {c : Char} (h1 : c ≠ '/') (h2 : c ≠ '?') (h3 : c ≠ '#') :
    netlocOk c = true := by
  simp [netlocOk, h1, h2, h3]

/-- Path-style resolution of a URL built from a host, a bucket and a key that
avoid the URL delimiter characters. -/
theorem parseUrl_path_style (host bucket key : PyStr)
    (hhne : host ≠ [])
    (hhost : ∀ c ∈ host, netlocOk c = true)
    (hbne : bucket ≠ [])
    (hbc : ∀ c ∈ bucket, c ≠ '/' ∧ c ≠ '?' ∧ c ≠ '#' ∧ c ≠ ';')
    (hkne : key ≠ [])
    (hkc : ∀ c ∈ key, c ≠ '?' ∧ c ≠ '#' ∧ c ≠ ';') :
    parseUrl host (pstr "https://" ++ (host ++ '/' :: (bucket ++ '/' :: key)))
      = .ok (bucket, key) := by
  have htail : ∀ c ∈ bucket ++ '/' :: key, c ≠ '?' ∧ c ≠ '#' ∧ c ≠ ';' := by
    intro c hc
    rcases List.mem_append.mp hc with hb | hk
    · exact ⟨(hbc _ hb).2.1, (hbc _ hb).2.2.1, (hbc _ hb).2.2.2⟩
    · rcases List.mem_cons.mp hk with he | hk2
      · subst he
        exact ⟨by decide, by decide, by decide⟩
      · exact hkc _ hk2
  have hparse := pyUrlparse_hostpath host (bucket ++ '/' :: key) hhost htail
  have huh : urlHostOf (pstr "https://" ++ (host ++ '/' :: (bucket ++ '/' :: key)))
      = pyLower host := by
    simp only [urlHostOf, hparse]
    simp [pyOr, hhne]
  have heh : endpointHostOf host = pyLower host := endpointHostOf_host hhne hhost
  have hpath : lstripSlash ('/' :: (bucket ++ '/' :: key)) = bucket ++ '/' :: key := by
    unfold lstripSlash
    rw [List.dropWhile_cons_of_pos (by decide)]
    cases bucket with
    | nil => exact absurd rfl hbne
    | cons b0 bs =>
      have hb0 : b0 ≠ '/' := (hbc b0 (List.mem_cons_self _ _)).1
      rw [List.cons_append, List.dropWhile_cons_of_neg (by simp [hb0])]
  have hsplit : pySplit1 '/' (bucket ++ '/' :: key) = (bucket, some key) := by
    unfold pySplit1
    have hnb : '/' ∉ bucket := fun hm => (hbc _ hm).1 rfl
    rw [splitAtChar_append_of_not_mem _ hnb, splitAtChar_cons_self]
    simp
  simp only [parseUrl, if_neg (show ¬ host = [] from hhne), huh, heh, if_pos rfl,
    hparse, hpath, hsplit]
  simp [hbne, hkne]

/-- C1 (amended): path-style round-trip for every object key produced by the
Object-Key Builder that contains none of '?', '#', ';' and every non-empty
bucket containing none of '.', '/', '?', '#', ';': building
`https://<endpointHost>/<bucket>/<key>` and resolving it with the same
endpoint returns exactly (bucket, key).  (As stated the claim is false for
builder keys containing URL delimiters: see the counterexample.) -/
theorem c1_path_roundtrip (host bucket : PyStr) (file : FileInput)
    (fn dir fm dm : PyStr) (clock : Clock)
    (hhne : host ≠ [])
    (hhost : ∀ c ∈ host, c ≠ '/' ∧ c ≠ '?' ∧ c ≠ '#')
    (hbne : bucket ≠ [])
    (hbc : ∀ c ∈ bucket, c ≠ '.' ∧ c ≠ '/' ∧ c ≠ '?' ∧ c ≠ '#' ∧ c ≠ ';')
    (hkc : ∀ c ∈ generate_object_key file fn dir fm dm clock,
      c ≠ '?' ∧ c ≠ '#' ∧ c ≠ ';') :
    parseUrl host
        (pstr "https://" ++ (host ++ '/' :: (bucket ++ '/' ::
          generate_object_key file fn dir fm dm clock)))
      = .ok (bucket, generate_object_key file fn dir fm dm clock) :=
  parseUrl_path_style host bucket _ hhne
    (fun c hc => netlocOk_eq_true (hhost c hc).1 (hhost c hc).2.1 (hhost c hc).2.2)
    hbne
    (fun c hc => ⟨(hbc c hc).2.1, (hbc c hc).2.2.1, (hbc c hc).2.2.2⟩)
    (generate_object_key_ne_nil file fn dir fm dm clock) hkc

theorem c1_witness :
    parseUrl (pstr "obs.example.com")
        (pstr "https://" ++ (pstr "obs.example.com" ++ '/' :: (pstr "bkt" ++ '/' ::
          generate_object_key ⟨pstr "f.txt", []⟩ [] [] (pstr "filename")
            (pstr "no_subdirectory") ⟨1700000000, 2023, 11, 14⟩)))
      = .ok (pstr "bkt", generate_object_key ⟨pstr "f.txt", []⟩ [] [] (pstr "filename")
          (pstr "no_subdirectory") ⟨1700000000, 2023, 11, 14⟩) :=
  c1_path_roundtrip _ _ _ _ _ _ _ _
    (by decide) (by decide) (by decide) (by decide) (by decide)

/-- C3 (amended): virtual-host round-trip for every lower-case bucket
containing none of '.', '/', '?', '#' and every non-empty key that does not
start with '/' and contains none of '?', '#', ';': resolving
`https://<bucket>.<endpointHost>/<key>` with the same endpoint returns exactly
(bucket, key).  (As stated the claim is false for keys with a leading slash:
see the counterexample.) -/
theorem c3_virtual_host_roundtrip (host bucket key : PyStr)
    (hhne : host ≠ [])
    (hhost : ∀ c ∈ host, c ≠ '/' ∧ c ≠ '?' ∧ c ≠ '#')
    (hlb : pyLower bucket = bucket)
    (hbc : ∀ c ∈ bucket, c ≠ '.' ∧ c ≠ '/' ∧ c ≠ '?' ∧ c ≠ '#')
    (hkne : key ≠ [])
    (hk0 : startsWith key ['/'] = false)
    (hkc : ∀ c ∈ key, c ≠ '?' ∧ c ≠ '#' ∧ c ≠ ';') :
    parseUrl host (pstr "https://" ++ ((bucket ++ '.' :: host) ++ '/' :: key))
      = .ok (bucket, key) := by
  have hhost2 : ∀ c ∈ host, netlocOk c = true :=
    fun c hc => netlocOk_eq_true (hhost c hc).1 (hhost c hc).2.1 (hhost c hc).2.2
  have hnet : ∀ c ∈ bucket ++ '.' :: host, netlocOk c = true := by
    intro c hc
    rcases List.mem_append.mp hc with hb | hh
    · exact netlocOk_eq_true (hbc _ hb).2.1 (hbc _ hb).2.2.1 (hbc _ hb).2.2.2
    · rcases List.mem_cons.mp hh with he | hh2
      · subst he
        decide
      · exact hhost2 _ hh2
  have hparse := pyUrlparse_hostpath (bucket ++ '.' :: host) key hnet hkc
  have hlowdot : lowerChar '.' = '.' := by decide
  have huh : urlHostOf (pstr "https://" ++ ((bucket ++ '.' :: host) ++ '/' :: key))
      = bucket ++ '.' :: pyLower host := by
    simp only [urlHostOf, hparse]
    have hne2 : bucket ++ '.' :: host ≠ [] :=
      append_ne_nil_right _ (List.cons_ne_nil _ _)
    simp only [pyOr, if_neg hne2]
    rw [pyLower_append, pyLower_cons, hlowdot, hlb]
  have heh : endpointHostOf host = pyLower host := endpointHostOf_host hhne hhost2
  have hneq : ¬ bucket ++ '.' :: pyLower host = pyLower host := by
    intro h
    have hl := congrArg List.length h
    rw [List.length_append, List.length_cons] at hl
    omega
  have hsuf : endsWith (bucket ++ '.' :: pyLower host) ('.' :: pyLower host) = true :=
    isSuffixOf_append_self _ _
  have hbeq : (bucket ++ '.' :: pyLower host).take
      ((bucket ++ '.' :: pyLower host).length - ((pyLower host).length + 1)) = bucket := by
    have hlen : (bucket ++ '.' :: pyLower host).length - ((pyLower host).length + 1)
        = bucket.length := by
      rw [List.length_append, List.length_cons]
      omega
    rw [hlen]
    have := List.take_left bucket ('.' :: pyLower host)
    exact this
  have hkey : lstripSlash ('/' :: key) = key := by
    unfold lstripSlash
    rw [List.dropWhile_cons_of_pos (by decide)]
    cases key with
    | nil => rfl
    | cons k0 ks =>
      have hk0c : ¬ k0 = '/' := by
        rw [startsWith_single_head] at hk0
        intro he
        exact hk0 (by rw [List.head?_cons, he])
      rw [List.dropWhile_cons_of_neg (by simp [hk0c])]
  simp only [parseUrl, if_neg (show ¬ host = [] from hhne), huh, heh, if_neg hneq,
    if_pos hsuf, hparse, hkey, hbeq]
  simp [hkne]

theorem c3_witness :
    parseUrl (pstr "example.com")
        (pstr "https://" ++ ((pstr "bkt" ++ '.' :: pstr "example.com") ++ '/' ::
          pstr "dir/a.txt"))
      = .ok (pstr "bkt", pstr "dir/a.txt") :=
  c3_virtual_host_roundtrip _ _ _
    (by decide) (by decide) (by decide) (by decide) (by decide) (by decide) (by decide)

/-! ## Model sanity checks

Concrete evaluations of the embedded functions, matching the behaviour of the
Python source on representative inputs. -/

example :
    generate_object_key ⟨pstr "f.txt", []⟩ [] (pstr "a") (pstr "filename")
      (pstr "no_subdirectory") ⟨1700000000, 2023, 11, 14⟩ = pstr "a/f.txt" := rfl

example :
    generate_object_key ⟨pstr "report.PDF", []⟩ [] [] (pstr "filename_timestamp")
      (pstr "no_subdirectory") ⟨1700000000, 2023, 11, 14⟩
      = pstr "report_1700000000.pdf" := rfl

example :
    generate_object_key ⟨pstr "f.txt", []⟩ [] [] (pstr "filename")
      (pstr "yyyy_mm_dd_hierarchy") ⟨1700000000, 2024, 3, 5⟩
      = pstr "2024/03/05/f.txt" := rfl

example :
    generate_object_key ⟨pstr "f.txt", []⟩ [] [] (pstr "filename")
      (pstr "yyyy_mm_dd_combined") ⟨1700000000, 2024, 3, 5⟩
      = pstr "20240305/f.txt" := rfl

example :
    generate_object_key ⟨[], []⟩ [] [] (pstr "filename")
      (pstr "no_subdirectory") ⟨1700000000, 2024, 3, 5⟩ = pstr "file_1700000000" := rfl

example : parseUrl (pstr "obs.example.com") (pstr "https://obs.example.com/bkt/dir/a.txt")
    = .ok (pstr "bkt", pstr "dir/a.txt") := rfl

example : parseUrl (pstr "obs.example.com") (pstr "https://mybkt.obs.example.com/dir/a.txt")
    = .ok (pstr "mybkt", pstr "dir/a.txt") := rfl

example : parseUrl (pstr "obs.example.com") (pstr "https://obs.example.com/bucketonly")
    = .error (wrapParseErr errNoKey) := rfl

example : parseUrl (pstr "https://obs.example.com") (pstr "HTTPS://OBS.Example.com/bkt/k.txt")
    = .ok (pstr "bkt", pstr "k.txt") := rfl

example : parseFileUrls (pstr "a; b ;;c") = [pstr "a", pstr "b", pstr "c"] := rfl

end HuaweiObs
